import Mathlib

/-!
Shallow embedding of triangler/edges.py over exact rationals.

Arrays are total functions on Fin-indexed grids; machine floats are modelled
by ℚ.  scipy.signal.convolve2d with mode "same" and boundary "symm" is
embedded directly; skimage color-conversion constants are taken from the
library sources.  Division by zero in ℚ yields 0, whereas numpy produces NaN
or inf; theorems about degenerate inputs therefore state the vanishing
divisor explicitly instead of relying on the quotient value.
-/

namespace Triangler

/-- A 2-D float array of shape (W, H), indexed the way edges.py indexes numpy
arrays: the first index is bounded by shape[0] (called `width` in the code),
the second by shape[1] (called `height`). -/
abbrev Mat (W H : ℕ) := Fin W → Fin H → ℚ

/-- An RGB image: a 3-D array of shape (W, H, 3). -/
abbrev Img (W H : ℕ) := Fin W → Fin H → Fin 3 → ℚ

/-- A solid-color (uniformly flat) image: every pixel of every channel is c. -/
def constImg (W H : ℕ) (c : ℚ) : Img W H := fun _ _ _ => c

/-- Index reflection for scipy's boundary="symm": out-of-range indices are
filled by reflecting about the array edge (half-sample symmetry), repeated as
needed, which is exactly reduction modulo 2n followed by folding the upper
half back.  For z in [0, n) this is the identity. -/
def reflect (n : ℕ) [NeZero n] (z : ℤ) : Fin n :=
  if h : (z % (2 * n)).toNat < n then ⟨(z % (2 * n)).toNat, h⟩
  else ⟨2 * n - 1 - (z % (2 * n)).toNat, by have := NeZero.ne n; omega⟩

/-- scipy.signal.convolve2d(src, ker, mode="same", boundary="symm") for an
odd-sized kernel: true 2-D convolution (kernel flipped), output the centered
same-size window of the full convolution, with symmetric boundary extension
of src. -/
def convolve2d {W H kh kw : ℕ} [NeZero W] [NeZero H]
    (src : Mat W H) (ker : Fin kh → Fin kw → ℚ) : Mat W H :=
  fun i j =>
    ∑ a : Fin kh, ∑ b : Fin kw,
      ker a b *
        src (reflect W ((i : ℤ) + (((kh - 1) / 2 : ℕ) : ℤ) - (a : ℤ)))
            (reflect H ((j : ℤ) + (((kw - 1) / 2 : ℕ) : ℤ) - (b : ℤ)))

/-- Binary maximum on ℚ, written out so that it evaluates by kernel
reduction. -/
def qmax (a b : ℚ) : ℚ := if a ≤ b then b else a

/-- All entries of a 2-D array, in row-major order. -/
def entriesList {W H : ℕ} (m : Mat W H) : List ℚ :=
  (List.finRange W).flatMap fun i => (List.finRange H).map (m i)

/-- The index 0, available in any nonempty Fin type. -/
def fin0 (n : ℕ) [NeZero n] : Fin n := ⟨0, Nat.pos_of_ne_zero (NeZero.ne n)⟩

/-- np.amax / np.max: the largest entry of a 2-D array. -/
def amax {W H : ℕ} [NeZero W] [NeZero H] (m : Mat W H) : ℚ :=
  (entriesList m).foldr qmax (m (fin0 W) (fin0 H))

/-- np.mean: the sum of all entries divided by the number of entries. -/
def mean {W H : ℕ} (m : Mat W H) : ℚ :=
  (∑ i : Fin W, ∑ j : Fin H, m i j) / ((W : ℚ) * (H : ℚ))

/-- In-place division of an array by its own maximum (`a /= np.amax(a)`). -/
def normMax {W H : ℕ} [NeZero W] [NeZero H] (m : Mat W H) : Mat W H :=
  fun i j => m i j / amax m

/-- In-place division of an array by its own mean (`a /= np.mean(a)`). -/
def normMean {W H : ℕ} (m : Mat W H) : Mat W H :=
  fun i j => m i j / mean m

/-- skimage.color.rgb2gray: luminance-weighted channel reduction with the
skimage coefficients 0.2125, 0.7154, 0.0721. -/
def rgb2gray {W H : ℕ} (img : Img W H) : Mat W H :=
  fun i j =>
    (2125 / 10000) * img i j 0 + (7154 / 10000) * img i j 1 +
      (721 / 10000) * img i j 2

/-- The uniform averaging kernel of Canny.compute:
np.ones((2*blur+1, 2*blur+1)) / ((2*blur+1)**2). -/
def boxKernel (blur : ℕ) : Fin (2 * blur + 1) → Fin (2 * blur + 1) → ℚ :=
  fun _ _ => 1 / (((2 * blur + 1) ^ 2 : ℕ) : ℚ)

/-- The fixed discrete Laplacian kernel of Canny.compute. -/
def lapKernel : Fin 3 → Fin 3 → ℚ :=
  ![![1, 1, 1], ![1, -8, 1], ![1, 1, 1]]

/-- The 3×3 all-ones densifying kernel of Canny.compute. -/
def denseKernel : Fin 3 → Fin 3 → ℚ := fun _ _ => 1

namespace Canny

/-- The thresholding loop of Canny.compute: every entry strictly below
3/256 is overwritten with 0, every other entry is left unchanged. -/
def thresholdMap {W H : ℕ} (m : Mat W H) : Mat W H :=
  fun i j => if m i j < 3 / 256 then 0 else m i j

/-- blurred = convolve2d(rgb2gray(img), blur_filt, "same", "symm"). -/
def blurred {W H : ℕ} [NeZero W] [NeZero H] (img : Img W H) (blur : ℕ) :
    Mat W H :=
  convolve2d (rgb2gray img) (boxKernel blur)

/-- edge = convolve2d(blurred, edge_filt, "same", "symm"). -/
def edge {W H : ℕ} [NeZero W] [NeZero H] (img : Img W H) (blur : ℕ) :
    Mat W H :=
  convolve2d (blurred img blur) lapKernel

/-- dense = convolve2d(thresholded edge, dense_filt, "same", "symm"): the
weight map before the final normalization. -/
def dense {W H : ℕ} [NeZero W] [NeZero H] (img : Img W H) (blur : ℕ) :
    Mat W H :=
  convolve2d (thresholdMap (edge img blur)) denseKernel

/-- Canny.compute: the dense map divided in place by its own maximum.  When
amax(dense) = 0 numpy computes 0/0 = NaN entrywise and returns the garbage
map without raising; in ℚ the same division yields 0, so degenerate-input
theorems state amax(dense) = 0 explicitly. -/
def computeMap {W H : ℕ} [NeZero W] [NeZero H] (img : Img W H) (blur : ℕ) :
    Mat W H :=
  normMax (dense img blur)

end Canny

namespace Entropy

/-- The linear blend of Entropy.compute:
weight = (bal * entropy_img) + ((1 - bal) * edges_img). -/
def blend {W H : ℕ} (entropy_img edges_img : Mat W H) (bal : ℚ) : Mat W H :=
  fun i j => bal * entropy_img i j + (1 - bal) * edges_img i j

/-- The repository-owned tail of Entropy.compute (edges.py lines 125-129):
blend the two maps, divide in place by the mean, then divide in place by the
maximum.  The maps entropy_img and edges_img are produced by third-party
library calls (skimage.restoration.denoise_tv_bregman, rgb2gray, rgb2lab,
skimage.filters.rank.entropy, dilation, gaussian, scharr) whose code is not
part of this repository; they are taken here as inputs. -/
def computeFrom {W H : ℕ} [NeZero W] [NeZero H]
    (entropy_img edges_img : Mat W H) (bal : ℚ) : Mat W H :=
  normMax (normMean (blend entropy_img edges_img bal))

end Entropy

/-- The luminance reduction of Sobel.compute for a 3-channel image, with the
code's own hard-coded BT.709 coefficients 0.2126, 0.7152, 0.0722 (note: these
differ from skimage's rgb2gray coefficients used by Canny). -/
def Sobel.lum {W H : ℕ} (img : Img W H) : Mat W H :=
  fun i j =>
    (2126 / 10000) * img i j 0 + (7152 / 10000) * img i j 1 +
      (722 / 10000) * img i j 2

/-- The 3×3 horizontal Sobel kernel kh of Sobel.compute. -/
def Sobel.kh3 : Fin 3 → Fin 3 → ℚ :=
  ![![-1, 0, 1], ![-2, 0, 2], ![-1, 0, 1]]

/-- The 3×3 vertical Sobel kernel kv of Sobel.compute. -/
def Sobel.kv3 : Fin 3 → Fin 3 → ℚ :=
  ![![1, 2, 1], ![0, 0, 0], ![-1, -2, -1]]

/-- The 5×5 horizontal Sobel kernel kh of Sobel.compute. -/
def Sobel.kh5 : Fin 5 → Fin 5 → ℚ :=
  ![![-1, -2, 0, 2, 1], ![-4, -8, 0, 8, 4], ![-6, -12, 0, 12, 6],
    ![-4, -8, 0, 8, 4], ![-1, -2, 0, 2, 1]]

/-- The 5×5 vertical Sobel kernel kv of Sobel.compute. -/
def Sobel.kv5 : Fin 5 → Fin 5 → ℚ :=
  ![![1, 4, 6, 4, 1], ![2, 8, 12, 8, 2], ![0, 0, 0, 0, 0],
    ![-2, -8, -12, -8, -2], ![-1, -4, -6, -4, -1]]

/-- The squared gradient magnitude gx*gx + gy*gy of Sobel.compute, for the
kernel pair selected by k_size (3 selects the 3×3 pair, anything else the
5×5 pair, exactly as the code's if/else does after the assert). -/
def Sobel.g2of {W H : ℕ} [NeZero W] [NeZero H] (img : Img W H)
    (k_size : ℕ) : Mat W H :=
  if k_size = 3 then
    fun i j =>
      (convolve2d (Sobel.lum img) Sobel.kh3 i j) ^ 2 +
        (convolve2d (Sobel.lum img) Sobel.kv3 i j) ^ 2
  else
    fun i j =>
      (convolve2d (Sobel.lum img) Sobel.kh5 i j) ^ 2 +
        (convolve2d (Sobel.lum img) Sobel.kv5 i j) ^ 2

/-- The rescaled Sobel map in squared space.  The code computes
g = sqrt(gx*gx + gy*gy) and then g *= 255.0 / np.max(g); pointwise square
roots are irrational, so the embedding carries g*g instead of g throughout:
entry (i,j) here is the square of the float map's entry (i,j), and
max(g) = 255 holds exactly when the maximum of this squared map is 255^2. -/
def Sobel.gScaled {W H : ℕ} [NeZero W] [NeZero H] (img : Img W H)
    (k_size : ℕ) : Mat W H :=
  fun i j =>
    Sobel.g2of img k_size i j * ((255 ^ 2 : ℚ) / amax (Sobel.g2of img k_size))

/-- Sobel.compute in squared space.  The assert k_size == 3 or k_size == 5
is modelled by the error branch (Python AssertionError).  When
amax(g2) = 0 the float code computes 255.0/0.0 = inf and 0*inf = NaN
without raising; as for Canny, that degenerate division is kept as the ℚ
division (which yields 0) and theorems state the vanishing maximum
explicitly. -/
def Sobel.computeSq {W H : ℕ} [NeZero W] [NeZero H] (img : Img W H)
    (k_size : ℕ) : Except String (Mat W H) :=
  if k_size = 3 ∨ k_size = 5 then .ok (Sobel.gScaled img k_size)
  else .error "AssertionError: k_size == 3 or k_size == 5"

/-! Point extraction (class EdgePoints). -/

/-- The EdgeMethod enum of edges.py. -/
inductive EdgeMethod
  | CANNY
  | ENTROPY
  | SOBEL
deriving DecidableEq

/-- The SampleMethod enum of triangler/sampling.py (imported by edges.py). -/
inductive SampleMethod
  | POISSON_DISK
  | THRESHOLD
deriving DecidableEq

/-- A Python value used where an EdgeMethod is expected: either a member of
the enum, or any other object (with its repr string), since Python's
is-dispatch cannot rule out foreign values. -/
inductive EdgeSelector
  | valid (m : EdgeMethod)
  | invalid (s : String)
deriving DecidableEq

/-- A Python value used where a SampleMethod is expected. -/
inductive SampleSelector
  | valid (m : SampleMethod)
  | invalid (s : String)
deriving DecidableEq

/-- The member names of the SampleMethod enum, as listed by
SampleMethod.__members__. -/
def SampleMethod.memberNames : List String := ["POISSON_DISK", "THRESHOLD"]

/-- The member names of the EdgeMethod enum. -/
def EdgeMethod.memberNames : List String := ["CANNY", "ENTROPY", "SOBEL"]

/-- Python's round (banker's rounding): round half to even. -/
def roundHalfEven (q : ℚ) : ℤ :=
  if q - ⌊q⌋ < 1 / 2 then ⌊q⌋
  else if q - ⌊q⌋ > 1 / 2 then ⌊q⌋ + 1
  else if ⌊q⌋ % 2 = 0 then ⌊q⌋ else ⌊q⌋ + 1

/-- The state held by an EdgePoints instance: the image, the requested point
count n and the edge method.  width = img.shape[0] = W and
height = img.shape[1] = H. -/
structure EdgePoints (W H : ℕ) where
  img : Img W H
  num_of_points : ℕ
  edge_method : EdgeSelector
deriving DecidableEq

/-- EdgePoints.__init__: stores the fields after validating
n <= round(width * height * 0.5); a larger n raises
UserWarning("The number of points is too large") before anything else
happens. -/
def EdgePoints.init {W H : ℕ} (img : Img W H) (n : ℕ) (edge : EdgeSelector) :
    Except String (EdgePoints W H) :=
  if (n : ℤ) > roundHalfEven ((W : ℚ) * (H : ℚ) * (1 / 2)) then
    .error "The number of points is too large"
  else .ok ⟨img, n, edge⟩

/-- The four corner points appended by get_edge_points, in source order:
[0,0], [0,height-1], [width-1,0], [width-1,height-1]. -/
def corners (W H : ℕ) : List (ℤ × ℤ) :=
  [(0, 0), (0, (H : ℤ) - 1), ((W : ℤ) - 1, 0), ((W : ℤ) - 1, (H : ℤ) - 1)]

/-- The edge-method dispatch of get_edge_points.  The ENTROPY branch calls
Entropy.compute(self.img) whose library stages are not in this repository;
entropyStage supplies the two library-produced maps that feed the
repository-owned blend (see Entropy.computeFrom).  The error branch
reproduces the code's message, which interpolates SampleMethod.__name__ and
SampleMethod.__members__ (not EdgeMethod's). -/
def EdgePoints.weightMap {W H : ℕ} [NeZero W] [NeZero H]
    (self : EdgePoints W H) (blur : ℕ)
    (entropyStage : Img W H → Mat W H × Mat W H) :
    Except String (Mat W H) :=
  match self.edge_method with
  | .valid .CANNY => .ok (Canny.computeMap self.img blur)
  | .valid .ENTROPY =>
      .ok (Entropy.computeFrom (entropyStage self.img).1
        (entropyStage self.img).2 (1 / 10))
  | .valid .SOBEL => Sobel.computeSq self.img 5
  | .invalid s =>
      .error ("Unexpected edge processing method: " ++ s ++
        "\nuse SampleMethod instead: " ++
        String.intercalate ", " SampleMethod.memberNames)

/-- The sampling dispatch of get_edge_points.  The two sampling strategies
live in triangler/sampling.py (outside this repository) and are passed in as
functions; the THRESHOLD branch passes the literal 0.2 exactly as the code
does. -/
def samplePointsOf {W H : ℕ} (sampling : SampleSelector) (n : ℕ)
    (edges : Mat W H)
    (poisson_disk_sample : ℕ → Mat W H → List (ℤ × ℤ))
    (threshold_sample : ℕ → Mat W H → ℚ → List (ℤ × ℤ)) :
    Except String (List (ℤ × ℤ)) :=
  match sampling with
  | .valid .POISSON_DISK => .ok (poisson_disk_sample n edges)
  | .valid .THRESHOLD => .ok (threshold_sample n edges (2 / 10))
  | .invalid s =>
      .error ("Unexpected sampling method: " ++ s ++
        "\nuse SampleMethod instead: " ++
        String.intercalate ", " SampleMethod.memberNames)

/-- EdgePoints.get_edge_points: dispatch on the edge method to get the
weight map, dispatch on the sampling method to get the sample points, then
np.append(sample_points, corners, axis=0). -/
def EdgePoints.get_edge_points {W H : ℕ} [NeZero W] [NeZero H]
    (self : EdgePoints W H) (blur : ℕ) (sampling : SampleSelector)
    (entropyStage : Img W H → Mat W H × Mat W H)
    (poisson_disk_sample : ℕ → Mat W H → List (ℤ × ℤ))
    (threshold_sample : ℕ → Mat W H → ℚ → List (ℤ × ℤ)) :
    Except String (List (ℤ × ℤ)) :=
  match self.weightMap blur entropyStage with
  | .error e => .error e
  | .ok edges =>
    match samplePointsOf sampling self.num_of_points edges
        poisson_disk_sample threshold_sample with
    | .error e => .error e
    | .ok sample_points => .ok (sample_points ++ corners W H)

/-! State-passing replays of the three compute functions.  The first
component of each result is the contents of the caller's image buffer after
the call.  In the source, rgb2gray and convolve2d allocate fresh arrays, and
every in-place statement (edge[idx] = 0, dense /= np.amax(dense),
weight /= np.mean(weight), weight /= np.amax(weight), g *= 255.0/np.max(g))
writes to one of those fresh arrays, never to the caller's img; the replays
below mirror that statement by statement, so the buffer returned is the one
that was passed in, untouched. -/

/-- Replay of Canny.compute threading the input buffer. -/
def Canny.computeT {W H : ℕ} [NeZero W] [NeZero H] (img : Img W H)
    (blur : ℕ) : Img W H × Mat W H :=
  let buf := img
  let gray_img := rgb2gray buf
  let blurred0 := convolve2d gray_img (boxKernel blur)
  let edge0 := convolve2d blurred0 lapKernel
  let edge1 := Canny.thresholdMap edge0
  let dense0 := convolve2d edge1 denseKernel
  (buf, normMax dense0)

/-- Replay of Entropy.compute threading the input buffer; the denoise /
entropy / Scharr library stages read the buffer and return fresh arrays
(here: the entropy_img and edges_img inputs). -/
def Entropy.computeT {W H : ℕ} [NeZero W] [NeZero H] (img : Img W H)
    (entropy_img edges_img : Mat W H) (bal : ℚ) : Img W H × Mat W H :=
  let buf := img
  let weight0 := Entropy.blend entropy_img edges_img bal
  let weight1 := normMean weight0
  let weight2 := normMax weight1
  (buf, weight2)

/-- Replay of Sobel.compute threading the input buffer; im = img.astype(...)
copies the buffer, and the local name img is then rebound to the luminance
array, leaving the caller's array untouched. -/
def Sobel.computeT {W H : ℕ} [NeZero W] [NeZero H] (img : Img W H)
    (k_size : ℕ) : Img W H × Except String (Mat W H) :=
  let buf := img
  let im := buf
  (buf, Sobel.computeSq im k_size)

/-! Concrete inputs used by witnesses and counterexamples. -/

/-- A 1×1 all-ones weight map. -/
def oneMat : Mat 1 1 := fun _ _ => 1

/-- A 1×2 weight map with entries 1/1000 and 5. -/
def mC5 : Mat 1 2 := fun _ j => ![1 / 1000, 5] j

/-- A 1×2 grayscale pattern with a variation far below the 3/256 threshold:
entries 0 and 1/10000. -/
def grayEps : Mat 1 2 := fun _ j => ![0, 1 / 10000] j

/-- A non-constant 1×2 RGB image whose three channels all equal grayEps. -/
def imgEps : Img 1 2 := fun i j _ => grayEps i j

/-- A 1×2 grayscale step pattern: entries 0 and 1. -/
def grayStep : Mat 1 2 := fun _ j => ![0, 1] j

/-- A 1×2 RGB step image whose three channels all equal grayStep. -/
def imgStep : Img 1 2 := fun i j _ => grayStep i j

/-- A dummy library stage for the Entropy branch of get_edge_points. -/
def stage0 : Img 1 1 → Mat 1 1 × Mat 1 1 := fun _ => (oneMat, oneMat)

/-- A dummy poisson_disk_sample returning no points. -/
def ps0 : ℕ → Mat 1 1 → List (ℤ × ℤ) := fun _ _ => []

/-- A dummy threshold_sample returning no points. -/
def ts0 : ℕ → Mat 1 1 → ℚ → List (ℤ × ℤ) := fun _ _ _ => []

/-- An EdgePoints instance with a valid CANNY edge method. -/
def epGood : EdgePoints 1 1 := ⟨constImg 1 1 0, 0, .valid .CANNY⟩

/-- An EdgePoints instance whose edge method is a foreign value (Python
None), outside the EdgeMethod enumeration. -/
def epBad : EdgePoints 1 1 := ⟨constImg 1 1 0, 0, .invalid "None"⟩

/-! Basic facts about qmax, entriesList, amax and mean. -/

theorem le_qmax_left (a b : ℚ) : a ≤ qmax a b := by
  unfold qmax; split_ifs with h
  · exact h
  · exact le_refl a

theorem le_qmax_right (a b : ℚ) : b ≤ qmax a b := by
  unfold qmax; split_ifs with h
  · exact le_refl b
  · exact le_of_lt (lt_of_not_le h)

theorem qmax_le {a b c : ℚ} (ha : a ≤ c) (hb : b ≤ c) : qmax a b ≤ c := by
  unfold qmax; split_ifs <;> assumption

theorem qmax_eq_or (a b : ℚ) : qmax a b = a ∨ qmax a b = b := by
  unfold qmax; split_ifs
  · exact Or.inr rfl
  · exact Or.inl rfl

theorem le_foldr_qmax_init (l : List ℚ) (b : ℚ) : b ≤ l.foldr qmax b := by
  induction l with
  | nil => exact le_refl b
  | cons x t ih => exact le_trans ih (le_qmax_right x _)

theorem le_foldr_qmax_mem {a : ℚ} {l : List ℚ} (h : a ∈ l) (b : ℚ) :
    a ≤ l.foldr qmax b := by
  induction l with
  | nil => cases h
  | cons x t ih =>
    rcases List.mem_cons.mp h with h1 | h1
    · subst h1; exact le_qmax_left a _
    · exact le_trans (ih h1) (le_qmax_right x _)

theorem foldr_qmax_le {l : List ℚ} {b c : ℚ} (hb : b ≤ c)
    (h : ∀ a ∈ l, a ≤ c) : l.foldr qmax b ≤ c := by
  induction l with
  | nil => exact hb
  | cons x t ih =>
    exact qmax_le (h x (List.mem_cons_self x t))
      (ih fun a ha => h a (List.mem_cons_of_mem x ha))

theorem foldr_qmax_eq_or (l : List ℚ) (b : ℚ) :
    l.foldr qmax b = b ∨ l.foldr qmax b ∈ l := by
  induction l with
  | nil => exact Or.inl rfl
  | cons x t ih =>
    show qmax x (t.foldr qmax b) = b ∨ qmax x (t.foldr qmax b) ∈ x :: t
    rcases qmax_eq_or x (t.foldr qmax b) with h | h
    · rw [h]; exact Or.inr (List.mem_cons_self x t)
    · rw [h]
      rcases ih with h1 | h1
      · exact Or.inl h1
      · exact Or.inr (List.mem_cons_of_mem x h1)

theorem mem_entriesList {W H : ℕ} (m : Mat W H) (i : Fin W) (j : Fin H) :
    m i j ∈ entriesList m := by
  unfold entriesList
  exact List.mem_flatMap.mpr
    ⟨i, List.mem_finRange i, List.mem_map.mpr ⟨j, List.mem_finRange j, rfl⟩⟩

theorem entriesList_mem {W H : ℕ} {m : Mat W H} {a : ℚ}
    (h : a ∈ entriesList m) : ∃ i j, a = m i j := by
  unfold entriesList at h
  rcases List.mem_flatMap.mp h with ⟨i, _, hi⟩
  rcases List.mem_map.mp hi with ⟨j, _, hj⟩
  exact ⟨i, j, hj.symm⟩

theorem le_amax {W H : ℕ} [NeZero W] [NeZero H] (m : Mat W H)
    (i : Fin W) (j : Fin H) : m i j ≤ amax m :=
  le_foldr_qmax_mem (mem_entriesList m i j) _

theorem amax_le {W H : ℕ} [NeZero W] [NeZero H] {m : Mat W H} {c : ℚ}
    (h : ∀ i j, m i j ≤ c) : amax m ≤ c :=
  foldr_qmax_le (h _ _) fun a ha => by
    rcases entriesList_mem ha with ⟨i, j, rfl⟩; exact h i j

theorem exists_amax {W H : ℕ} [NeZero W] [NeZero H] (m : Mat W H) :
    ∃ i j, amax m = m i j := by
  rcases foldr_qmax_eq_or (entriesList m) (m (fin0 W) (fin0 H)) with h | h
  · exact ⟨fin0 W, fin0 H, h⟩
  · rcases entriesList_mem h with ⟨i, j, hij⟩
    exact ⟨i, j, hij⟩

theorem amax_const {W H : ℕ} [NeZero W] [NeZero H] (c : ℚ) :
    amax (fun _ _ => c : Mat W H) = c :=
  le_antisymm (amax_le fun _ _ => le_refl c) (le_amax _ (fin0 W) (fin0 H))

theorem amax_div_pos {W H : ℕ} [NeZero W] [NeZero H] (m : Mat W H) {c : ℚ}
    (hc : 0 < c) : amax (fun i j => m i j / c) = amax m / c := by
  apply le_antisymm
  · exact amax_le fun i j => (div_le_div_iff_of_pos_right hc).mpr (le_amax m i j)
  · rcases exists_amax m with ⟨i, j, hij⟩
    rw [hij]
    exact le_amax (fun i j => m i j / c) i j

theorem amax_mul_pos {W H : ℕ} [NeZero W] [NeZero H] (m : Mat W H) {c : ℚ}
    (hc : 0 < c) : amax (fun i j => m i j * c) = amax m * c := by
  apply le_antisymm
  · exact amax_le fun i j => (mul_le_mul_right hc).mpr (le_amax m i j)
  · rcases exists_amax m with ⟨i, j, hij⟩
    rw [hij]
    exact le_amax (fun i j => m i j * c) i j

theorem mean_le_amax {W H : ℕ} [NeZero W] [NeZero H] (m : Mat W H) :
    mean m ≤ amax m := by
  have hW : (0 : ℚ) < (W : ℚ) :=
    Nat.cast_pos.mpr (Nat.pos_of_ne_zero (NeZero.ne W))
  have hH : (0 : ℚ) < (H : ℚ) :=
    Nat.cast_pos.mpr (Nat.pos_of_ne_zero (NeZero.ne H))
  have hsum : (∑ i : Fin W, ∑ j : Fin H, m i j) ≤ (W : ℚ) * (H : ℚ) * amax m := by
    calc (∑ i : Fin W, ∑ j : Fin H, m i j)
        ≤ ∑ _i : Fin W, ∑ _j : Fin H, amax m :=
          Finset.sum_le_sum fun i _ =>
            Finset.sum_le_sum fun j _ => le_amax m i j
      _ = (W : ℚ) * (H : ℚ) * amax m := by
          simp [Finset.sum_const, Finset.card_univ, nsmul_eq_mul]
          ring
  unfold mean
  rw [div_le_iff₀ (by positivity)]
  calc (∑ i : Fin W, ∑ j : Fin H, m i j)
      ≤ (W : ℚ) * (H : ℚ) * amax m := hsum
    _ = amax m * ((W : ℚ) * (H : ℚ)) := by ring

theorem amax_pos_of_mean_pos {W H : ℕ} [NeZero W] [NeZero H] {m : Mat W H}
    (h : 0 < mean m) : 0 < amax m :=
  lt_of_lt_of_le h (mean_le_amax m)

theorem amax_normMax {W H : ℕ} [NeZero W] [NeZero H] {m : Mat W H}
    (h : 0 < amax m) : amax (normMax m) = 1 := by
  unfold normMax
  rw [amax_div_pos m h, div_self (ne_of_gt h)]

theorem normMax_normMean {W H : ℕ} [NeZero W] [NeZero H] {m : Mat W H}
    (h : 0 < mean m) : normMax (normMean m) = normMax m := by
  have hM : 0 < amax m := amax_pos_of_mean_pos h
  funext i j
  show normMean m i j / amax (normMean m) = m i j / amax m
  unfold normMean
  rw [amax_div_pos m h]
  field_simp

/-! Facts about reflect and convolve2d. -/

theorem reflect_fin {n : ℕ} [NeZero n] (i : Fin n) :
    reflect n ((i : ℕ) : ℤ) = i := by
  have hlt : ((i : ℕ) : ℤ) < 2 * n := by
    have := i.isLt; omega
  have hmod : (((i : ℕ) : ℤ)) % (2 * n) = ((i : ℕ) : ℤ) :=
    Int.emod_eq_of_lt (by positivity) hlt
  unfold reflect
  simp only [hmod, Int.toNat_natCast]
  rw [dif_pos i.isLt]

theorem convolve2d_box_zero {W H : ℕ} [NeZero W] [NeZero H] (src : Mat W H) :
    convolve2d src (boxKernel 0) = src := by
  funext i j
  show (∑ a : Fin 1, ∑ b : Fin 1, _) = src i j
  rw [Fin.sum_univ_one, Fin.sum_univ_one]
  have hk : boxKernel 0 0 0 = 1 := by
    unfold boxKernel; norm_num
  rw [hk, one_mul]
  have h1 : ((1 - 1) / 2 : ℕ) = 0 := rfl
  have hz : ((0 : Fin 1) : ℤ) = 0 := rfl
  simp only [h1, hz, Nat.cast_zero, add_zero, sub_zero]
  rw [reflect_fin i, reflect_fin j]

theorem convolve2d_const {W H kh kw : ℕ} [NeZero W] [NeZero H] (c : ℚ)
    (ker : Fin kh → Fin kw → ℚ) :
    convolve2d (fun _ _ => c : Mat W H) ker =
      fun _ _ => c * ∑ a : Fin kh, ∑ b : Fin kw, ker a b := by
  funext i j
  show (∑ a : Fin kh, ∑ b : Fin kw, ker a b * c) = _
  rw [Finset.mul_sum]
  refine Finset.sum_congr rfl fun a _ => ?_
  rw [Finset.mul_sum]
  exact Finset.sum_congr rfl fun b _ => mul_comm _ _

theorem boxKernel_sum (blur : ℕ) :
    (∑ a : Fin (2 * blur + 1), ∑ b : Fin (2 * blur + 1), boxKernel blur a b)
      = 1 := by
  unfold boxKernel
  rw [Finset.sum_const, Finset.sum_const, Finset.card_univ, Fintype.card_fin,
    smul_smul, nsmul_eq_mul]
  push_cast
  have h : ((2 * blur + 1 : ℕ) : ℚ) ≠ 0 := by positivity
  field_simp
  ring

theorem lapKernel_sum : (∑ a : Fin 3, ∑ b : Fin 3, lapKernel a b) = 0 := by
  simp [lapKernel, Fin.sum_univ_three]
  norm_num

theorem denseKernel_sum : (∑ a : Fin 3, ∑ b : Fin 3, denseKernel a b) = 9 := by
  simp [denseKernel, Fin.sum_univ_three]
  norm_num

theorem rgb2gray_const {W H : ℕ} (c : ℚ) :
    rgb2gray (constImg W H c) = fun _ _ => c := by
  funext i j
  show (2125 / 10000) * c + (7154 / 10000) * c + (721 / 10000) * c = c
  ring

/-! The Gradient-Edge pipeline on a uniformly flat image. -/

theorem blurred_const {W H : ℕ} [NeZero W] [NeZero H] (c : ℚ) (blur : ℕ) :
    Canny.blurred (constImg W H c) blur = fun _ _ => c := by
  unfold Canny.blurred
  rw [rgb2gray_const, convolve2d_const, boxKernel_sum]
  funext i j
  exact mul_one c

theorem edge_const {W H : ℕ} [NeZero W] [NeZero H] (c : ℚ) (blur : ℕ) :
    Canny.edge (constImg W H c) blur = fun _ _ => 0 := by
  unfold Canny.edge
  rw [blurred_const, convolve2d_const, lapKernel_sum]
  funext i j
  exact mul_zero c

theorem thresholdMap_zero {W H : ℕ} :
    Canny.thresholdMap (fun _ _ => 0 : Mat W H) = fun _ _ => 0 := by
  funext i j
  show (if (0 : ℚ) < 3 / 256 then 0 else 0) = 0
  exact ite_self 0

theorem dense_const {W H : ℕ} [NeZero W] [NeZero H] (c : ℚ) (blur : ℕ) :
    Canny.dense (constImg W H c) blur = fun _ _ => 0 := by
  unfold Canny.dense
  rw [edge_const, thresholdMap_zero, convolve2d_const]
  funext i j
  exact zero_mul _

/-! Concrete evaluation helpers. -/

theorem reflect_one (z : ℤ) : reflect 1 z = 0 :=
  Subsingleton.elim _ _

theorem reflect_two_neg_one : reflect 2 (-1) = 0 := by decide

theorem reflect_two_zero : reflect 2 0 = 0 := by decide

theorem reflect_two_one : reflect 2 1 = 1 := by decide

theorem reflect_two_two : reflect 2 2 = 1 := by decide

/-- rgb2gray collapses an image whose three channels agree to that common
channel (the skimage coefficients sum to 1). -/
theorem rgb2gray_monochrome {W H : ℕ} (f : Fin W → Fin H → ℚ) :
    rgb2gray (fun i j _ => f i j) = f := by
  funext i j
  show (2125 / 10000) * f i j + (7154 / 10000) * f i j +
    (721 / 10000) * f i j = f i j
  ring

/-- Sobel.lum collapses an image whose three channels agree to that common
channel (the BT.709 coefficients sum to 1). -/
theorem lum_monochrome {W H : ℕ} (f : Fin W → Fin H → ℚ) :
    Sobel.lum (fun i j _ => f i j) = f := by
  funext i j
  show (2126 / 10000) * f i j + (7152 / 10000) * f i j +
    (722 / 10000) * f i j = f i j
  ring

theorem roundHalfEven_intCast (k : ℤ) : roundHalfEven (k : ℚ) = k := by
  unfold roundHalfEven
  rw [Int.floor_intCast]
  norm_num

theorem blurred_zero_imgEps : Canny.blurred imgEps 0 = grayEps := by
  unfold Canny.blurred imgEps
  rw [rgb2gray_monochrome]
  exact convolve2d_box_zero grayEps

theorem edgeEps_eq :
    Canny.edge imgEps 0 = fun _ j => ![3 / 10000, -3 / 10000] j := by
  funext i j
  unfold Canny.edge
  rw [blurred_zero_imgEps]
  fin_cases i
  fin_cases j <;>
    · simp [convolve2d, Fin.sum_univ_three, lapKernel, grayEps, reflect_one,
        reflect_two_neg_one, reflect_two_zero, reflect_two_one,
        reflect_two_two]
      norm_num

theorem thresholdMap_edgeEps :
    Canny.thresholdMap (Canny.edge imgEps 0) = fun _ _ => 0 := by
  rw [edgeEps_eq]
  funext i j
  unfold Canny.thresholdMap
  fin_cases j <;> simp <;> norm_num

theorem denseEps_eq : Canny.dense imgEps 0 = fun _ _ => 0 := by
  unfold Canny.dense
  rw [thresholdMap_edgeEps, convolve2d_const]
  funext i j
  exact zero_mul _

theorem computeMapEps_eq : Canny.computeMap imgEps 0 = fun _ _ => 0 := by
  unfold Canny.computeMap
  rw [denseEps_eq]
  unfold normMax
  funext i j
  simp

theorem blurred_zero_imgStep : Canny.blurred imgStep 0 = grayStep := by
  unfold Canny.blurred imgStep
  rw [rgb2gray_monochrome]
  exact convolve2d_box_zero grayStep

theorem edgeStep_eq : Canny.edge imgStep 0 = fun _ j => ![3, -3] j := by
  funext i j
  unfold Canny.edge
  rw [blurred_zero_imgStep]
  fin_cases i
  fin_cases j <;>
    norm_num [convolve2d, Fin.sum_univ_three, lapKernel, grayStep,
      reflect_one, reflect_two_neg_one, reflect_two_zero, reflect_two_one,
      reflect_two_two]

theorem thresholdMap_edgeStep :
    Canny.thresholdMap (Canny.edge imgStep 0) = fun _ j => ![3, 0] j := by
  rw [edgeStep_eq]
  funext i j
  unfold Canny.thresholdMap
  fin_cases j
  · simp only [Fin.mk_zero, Matrix.cons_val_zero]
    rw [if_neg (by norm_num)]
  · simp only [Fin.mk_one, Matrix.cons_val_one, Matrix.head_cons]
    rw [if_pos (by norm_num)]

theorem denseStep00 : Canny.dense imgStep 0 0 0 = 18 := by
  unfold Canny.dense
  rw [thresholdMap_edgeStep]
  norm_num [convolve2d, Fin.sum_univ_three, denseKernel, reflect_one,
    reflect_two_neg_one, reflect_two_zero, reflect_two_one, reflect_two_two]

theorem lumStep_eq : Sobel.lum imgStep = grayStep := by
  unfold imgStep
  exact lum_monochrome grayStep

theorem gxStep00 : convolve2d grayStep Sobel.kh3 0 0 = -4 := by
  simp [convolve2d, Fin.sum_univ_three, Sobel.kh3, grayStep, reflect_one,
    reflect_two_neg_one, reflect_two_zero, reflect_two_one, reflect_two_two]
  norm_num

theorem gyStep00 : convolve2d grayStep Sobel.kv3 0 0 = 0 := by
  norm_num [convolve2d, Fin.sum_univ_three, Sobel.kv3, grayStep, reflect_one,
    reflect_two_neg_one, reflect_two_zero, reflect_two_one, reflect_two_two]

theorem g2Step00 : Sobel.g2of imgStep 3 0 0 = 16 := by
  unfold Sobel.g2of
  rw [if_pos rfl]
  show (convolve2d (Sobel.lum imgStep) Sobel.kh3 0 0) ^ 2 +
    (convolve2d (Sobel.lum imgStep) Sobel.kv3 0 0) ^ 2 = 16
  rw [lumStep_eq, gxStep00, gyStep00]
  norm_num

/-! Claim theorems. -/

/-- C2: on every uniformly flat (solid-color) image the Gradient-Edge map is
uniformly zero before normalization, so the divisor np.amax(dense) is 0 and
the final in-place division is 0/0 for every entry: in floating point the
returned map is all-NaN and no exception is raised (ℚ renders each 0/0
quotient as 0).  The code never signals DegenerateWeightMap. -/
theorem c2_flat_image_degenerate {W H : ℕ} [NeZero W] [NeZero H] (c : ℚ)
    (blur : ℕ) :
    Canny.dense (constImg W H c) blur = (fun _ _ => 0) ∧
    amax (Canny.dense (constImg W H c) blur) = 0 ∧
    Canny.computeMap (constImg W H c) blur = fun _ _ => 0 := by
  refine ⟨dense_const c blur, ?_, ?_⟩
  · rw [dense_const]; exact amax_const 0
  · unfold Canny.computeMap
    rw [dense_const]
    unfold normMax
    funext i j
    simp

/-- C2 witness: the spec's 10×10 solid-color scenario with blur = 1. -/
theorem c2_flat_image_degenerate_witness :
    Canny.dense (constImg 10 10 (1 / 2)) 1 = (fun _ _ => 0) ∧
    amax (Canny.dense (constImg 10 10 (1 / 2)) 1) = 0 ∧
    Canny.computeMap (constImg 10 10 (1 / 2)) 1 = fun _ _ => 0 :=
  c2_flat_image_degenerate (1 / 2) 1

/-- C5: the thresholding step of the Gradient-Edge algorithm maps every raw
edge value strictly below 3/256 to 0 and leaves every value at or above
3/256 unchanged. -/
theorem c5_threshold_step {W H : ℕ} (m : Mat W H) (i : Fin W) (j : Fin H) :
    (m i j < 3 / 256 → Canny.thresholdMap m i j = 0) ∧
    (3 / 256 ≤ m i j → Canny.thresholdMap m i j = m i j) := by
  constructor
  · intro h; unfold Canny.thresholdMap; rw [if_pos h]
  · intro h; unfold Canny.thresholdMap; rw [if_neg (not_lt.mpr h)]

/-- C5 witness: 1/1000 < 3/256 is zeroed, 5 ≥ 3/256 passes unchanged. -/
theorem c5_threshold_step_witness :
    Canny.thresholdMap mC5 0 0 = 0 ∧ Canny.thresholdMap mC5 0 1 = mC5 0 1 :=
  ⟨(c5_threshold_step mC5 0 0).1 (by norm_num [mC5]),
   (c5_threshold_step mC5 0 1).2 (by norm_num [mC5])⟩

/-- C7: with blur radius 0 the averaging kernel is the 1×1 identity kernel,
so the blurred image handed to the Laplacian step equals the grayscale
image unchanged. -/
theorem c7_blur_zero_identity {W H : ℕ} [NeZero W] [NeZero H]
    (img : Img W H) :
    boxKernel 0 = (fun _ _ => (1 : ℚ)) ∧
    Canny.blurred img 0 = rgb2gray img := by
  constructor
  · funext a b; unfold boxKernel; norm_num
  · unfold Canny.blurred; exact convolve2d_box_zero (rgb2gray img)

/-- C7 witness: instantiated on a concrete 1×1 image. -/
theorem c7_blur_zero_identity_witness :
    boxKernel 0 = (fun _ _ => (1 : ℚ)) ∧
    Canny.blurred (constImg 1 1 0) 0 = rgb2gray (constImg 1 1 0) :=
  c7_blur_zero_identity (constImg 1 1 0)

/-- C9: none of the three compute functions writes to the caller's image
buffer: each state-passing replay returns the input buffer unchanged,
together with the same map the pure function computes. -/
theorem c9_input_not_mutated {W H : ℕ} [NeZero W] [NeZero H]
    (img : Img W H) (blur : ℕ) (entropy_img edges_img : Mat W H) (bal : ℚ)
    (k_size : ℕ) :
    Canny.computeT img blur = (img, Canny.computeMap img blur) ∧
    Entropy.computeT img entropy_img edges_img bal =
      (img, Entropy.computeFrom entropy_img edges_img bal) ∧
    Sobel.computeT img k_size = (img, Sobel.computeSq img k_size) :=
  ⟨rfl, rfl, rfl⟩

/-- C9 witness: instantiated on concrete inputs. -/
theorem c9_input_not_mutated_witness :
    Canny.computeT (constImg 1 1 0) 0 =
      ((constImg 1 1 0), Canny.computeMap (constImg 1 1 0) 0) ∧
    Entropy.computeT (constImg 1 1 0) oneMat oneMat (1 / 10) =
      ((constImg 1 1 0), Entropy.computeFrom oneMat oneMat (1 / 10)) ∧
    Sobel.computeT (constImg 1 1 0) 3 =
      ((constImg 1 1 0), Sobel.computeSq (constImg 1 1 0) 3) :=
  c9_input_not_mutated (constImg 1 1 0) 0 oneMat oneMat (1 / 10) 3

/-- C10: whenever the blended Entropy map has positive mean, dividing by
the mean and then by the maximum of the result is exactly dividing by the
maximum alone: the mean-normalization step has no effect on the final
weight map. -/
theorem c10_mean_normalization_noop {W H : ℕ} [NeZero W] [NeZero H]
    (entropy_img edges_img : Mat W H) (bal : ℚ)
    (h : 0 < mean (Entropy.blend entropy_img edges_img bal)) :
    Entropy.computeFrom entropy_img edges_img bal =
      normMax (Entropy.blend entropy_img edges_img bal) := by
  unfold Entropy.computeFrom
  exact normMax_normMean h

/-- C10 witness: two all-ones maps blended with bal = 0.1. -/
theorem c10_mean_normalization_noop_witness :
    Entropy.computeFrom oneMat oneMat (1 / 10) =
      normMax (Entropy.blend oneMat oneMat (1 / 10)) :=
  c10_mean_normalization_noop oneMat oneMat (1 / 10)
    (by norm_num [mean, Entropy.blend, oneMat, Fin.sum_univ_one])

/-- C1 (amended): the Gradient-Edge map has maximum exactly 1 whenever its
densified pre-normalization map has positive maximum, and the Entropy map
has maximum exactly 1 whenever the blend of the library-produced entropy
and edge maps has positive mean.  (The original non-constancy hypothesis is
not enough: see the counterexample.) -/
theorem c1_weight_map_max_one {W H : ℕ} [NeZero W] [NeZero H] :
    (∀ (img : Img W H) (blur : ℕ), 0 < amax (Canny.dense img blur) →
      Canny.computeMap img blur = normMax (Canny.dense img blur) ∧
      amax (Canny.computeMap img blur) = 1) ∧
    (∀ (entropy_img edges_img : Mat W H) (bal : ℚ),
      0 < mean (Entropy.blend entropy_img edges_img bal) →
      amax (Entropy.computeFrom entropy_img edges_img bal) = 1) := by
  constructor
  · intro img blur h
    refine ⟨rfl, ?_⟩
    show amax (normMax (Canny.dense img blur)) = 1
    exact amax_normMax h
  · intro entropy_img edges_img bal h
    unfold Entropy.computeFrom
    rw [normMax_normMean h]
    exact amax_normMax (amax_pos_of_mean_pos h)

/-- C1 counterexample: imgEps is non-constant (its two pixels differ), yet
every Laplacian response lies below the 3/256 threshold, the densified map
is all-zero, and the returned Gradient-Edge map does not have maximum 1:
the final division is 0/0 per entry (NaN in floating point, 0 in ℚ), so the
maximum is 0. -/
theorem c1_counterexample :
    imgEps 0 1 0 ≠ imgEps 0 0 0 ∧
    amax (Canny.computeMap imgEps 0) ≠ 1 := by
  constructor
  · show grayEps 0 1 ≠ grayEps 0 0
    norm_num [grayEps]
  · rw [computeMapEps_eq, amax_const]
    norm_num

/-- C1 witness: the step image imgStep has a supra-threshold edge, so the
Gradient-Edge hypothesis holds there; two all-ones maps give the Entropy
blend a positive mean. -/
theorem c1_weight_map_max_one_witness :
    (Canny.computeMap imgStep 0 = normMax (Canny.dense imgStep 0) ∧
      amax (Canny.computeMap imgStep 0) = 1) ∧
    amax (Entropy.computeFrom oneMat oneMat (1 / 10)) = 1 := by
  constructor
  · apply (c1_weight_map_max_one (W := 1) (H := 2)).1 imgStep 0
    calc (0 : ℚ) < 18 := by norm_num
      _ = Canny.dense imgStep 0 0 0 := denseStep00.symm
      _ ≤ amax (Canny.dense imgStep 0) := le_amax _ 0 0
  · apply (c1_weight_map_max_one (W := 1) (H := 1)).2 oneMat oneMat (1 / 10)
    norm_num [mean, Entropy.blend, oneMat, Fin.sum_univ_one]

/-- C3: every successful extraction returns the sampled points followed by
exactly the four corner points (0,0), (0,H-1), (W-1,0), (W-1,H-1) in that
order, so the result has length sampled-count + 4 and its last four
elements are the corners. -/
theorem c3_sampled_points_plus_corners {W H : ℕ} [NeZero W] [NeZero H]
    (self : EdgePoints W H) (blur : ℕ) (sampling : SampleSelector)
    (entropyStage : Img W H → Mat W H × Mat W H)
    (poisson_disk_sample : ℕ → Mat W H → List (ℤ × ℤ))
    (threshold_sample : ℕ → Mat W H → ℚ → List (ℤ × ℤ))
    (pts : List (ℤ × ℤ))
    (h : self.get_edge_points blur sampling entropyStage
      poisson_disk_sample threshold_sample = .ok pts) :
    corners W H =
      [(0, 0), (0, (H : ℤ) - 1), ((W : ℤ) - 1, 0),
        ((W : ℤ) - 1, (H : ℤ) - 1)] ∧
    ∃ sample_points, pts = sample_points ++ corners W H ∧
      pts.length = sample_points.length + 4 ∧
      pts.drop (pts.length - 4) = corners W H := by
  refine ⟨rfl, ?_⟩
  unfold EdgePoints.get_edge_points at h
  cases hw : self.weightMap blur entropyStage with
  | error e => rw [hw] at h; simp at h
  | ok edges =>
    rw [hw] at h
    dsimp only at h
    cases hs : samplePointsOf sampling self.num_of_points edges
        poisson_disk_sample threshold_sample with
    | error e => rw [hs] at h; simp at h
    | ok sample_points =>
      rw [hs] at h
      simp only [Except.ok.injEq] at h
      subst h
      refine ⟨sample_points, rfl, by simp [corners], ?_⟩
      have hlen : (sample_points ++ corners W H).length - 4 =
          sample_points.length := by simp [corners]
      rw [hlen]
      simp [corners]

/-- C3 witness: a CANNY extraction on a 1×1 image with a sampler returning
no points yields exactly the four corners. -/
theorem c3_sampled_points_plus_corners_witness :
    ∃ sample_points, corners 1 1 = sample_points ++ corners 1 1 ∧
      (corners 1 1).length = sample_points.length + 4 ∧
      (corners 1 1).drop ((corners 1 1).length - 4) = corners 1 1 :=
  (c3_sampled_points_plus_corners epGood 0 (.valid .POISSON_DISK) stage0
    ps0 ts0 (corners 1 1) rfl).2

/-- C4: EdgePoints construction fails with the excessive-point-count error
exactly when n exceeds round(width * height * 0.5) (Python's banker's
rounding), and succeeds (storing the fields, with no saliency computation
or dispatch involved) otherwise. -/
theorem c4_point_count_validation {W H : ℕ} (img : Img W H) (n : ℕ)
    (edge : EdgeSelector) :
    ((n : ℤ) > roundHalfEven ((W : ℚ) * (H : ℚ) * (1 / 2)) →
      EdgePoints.init img n edge =
        .error "The number of points is too large") ∧
    ((n : ℤ) ≤ roundHalfEven ((W : ℚ) * (H : ℚ) * (1 / 2)) →
      EdgePoints.init img n edge = .ok ⟨img, n, edge⟩) := by
  constructor
  · intro h; unfold EdgePoints.init; rw [if_pos h]
  · intro h; unfold EdgePoints.init; rw [if_neg (not_lt.mpr h)]

/-- C4 witness: a 2×2 image has round(2*2*0.5) = 2, so n = 3 is rejected
and n = 2 is accepted. -/
theorem c4_point_count_validation_witness :
    EdgePoints.init (constImg 2 2 0) 3 (.valid .CANNY) =
      .error "The number of points is too large" ∧
    EdgePoints.init (constImg 2 2 0) 2 (.valid .CANNY) =
      .ok ⟨constImg 2 2 0, 2, .valid .CANNY⟩ := by
  have h2 : (((2 : ℕ) : ℚ) * ((2 : ℕ) : ℚ) * (1 / 2)) = ((2 : ℤ) : ℚ) := by
    push_cast; norm_num
  have hr : roundHalfEven (((2 : ℕ) : ℚ) * ((2 : ℕ) : ℚ) * (1 / 2)) = 2 := by
    rw [h2, roundHalfEven_intCast]
  constructor
  · exact (c4_point_count_validation (constImg 2 2 0) 3 (.valid .CANNY)).1
      (by rw [hr]; norm_num)
  · exact (c4_point_count_validation (constImg 2 2 0) 2 (.valid .CANNY)).2
      (by rw [hr]; norm_num)

/-- C6: whenever the squared gradient-magnitude map has positive maximum,
Sobel.compute (embedded in squared space) succeeds and returns the rescaled
map whose maximum is 255^2, i.e. the float map's maximum is exactly 255. -/
theorem c6_sobel_max_255 {W H : ℕ} [NeZero W] [NeZero H] (img : Img W H)
    (k_size : ℕ) (hk : k_size = 3 ∨ k_size = 5)
    (h : 0 < amax (Sobel.g2of img k_size)) :
    Sobel.computeSq img k_size = .ok (Sobel.gScaled img k_size) ∧
    amax (Sobel.gScaled img k_size) = 255 ^ 2 := by
  constructor
  · unfold Sobel.computeSq; rw [if_pos hk]
  · unfold Sobel.gScaled
    rw [amax_mul_pos _ (div_pos (by norm_num) h)]
    rw [mul_comm]
    exact div_mul_cancel₀ _ (ne_of_gt h)

/-- C6 witness: the step image with k_size = 3 has squared gradient 16 at
pixel (0,0), so the maximum is positive. -/
theorem c6_sobel_max_255_witness :
    Sobel.computeSq imgStep 3 = .ok (Sobel.gScaled imgStep 3) ∧
    amax (Sobel.gScaled imgStep 3) = 255 ^ 2 := by
  apply c6_sobel_max_255 imgStep 3 (Or.inl rfl)
  calc (0 : ℚ) < 16 := by norm_num
    _ = Sobel.g2of imgStep 3 0 0 := g2Step00.symm
    _ ≤ amax (Sobel.g2of imgStep 3) := le_amax _ 0 0

/-- C8: dispatching on an edge-method value outside the enumeration fails
before any weight map is produced, but the error message interpolates
SampleMethod.__name__ and SampleMethod.__members__, so it enumerates the
sampling methods POISSON_DISK, THRESHOLD instead of the valid saliency
algorithms CANNY, ENTROPY, SOBEL (the two member lists differ). -/
theorem c8_unsupported_algorithm_message :
    EdgePoints.get_edge_points epBad 0 (.valid .POISSON_DISK) stage0 ps0
      ts0 =
      .error ("Unexpected edge processing method: None" ++
        "\nuse SampleMethod instead: POISSON_DISK, THRESHOLD") ∧
    SampleMethod.memberNames ≠ EdgeMethod.memberNames := by
  constructor
  · rfl
  · decide

end Triangler
